import Mathlib

/-!
Verification of the mlogin repository (a macOS login/background-item manager).

The development shallowly embeds the aggregation and presentation layer of
the program: the pure record types, the string scanning helpers, the
aggregators (listLoginItems, listBackgroundItems, listSystemExtensions),
the delete mutator (deleteBackgroundItem), and the interactive browser
state machine (UIModel.update, UIModel.rebuildTable, selection helpers).

External process invocations (osascript, launchctl, PlistBuddy,
systemextensionsctl, the filesystem) are abstracted as environment
records supplying the observable result of each call; all logic that the
repository itself implements on top of those results is translated
directly from the Go source.  Go byte-indexed string operations are
modelled at character granularity.
-/

set_option maxHeartbeats 1000000
set_option maxRecDepth 4000

namespace Mlogin

/-! ## Go string helpers (models of the strings package operations used) -/

/-- Model of Go strings.ToLower as used by the source (character map). -/
def goToLower (s : String) : String := ⟨s.data.map Char.toLower⟩

/-- Drop leading whitespace characters from a character list. -/
def dropLeadWs : List Char → List Char
  | [] => []
  | c :: cs => if c.isWhitespace then dropLeadWs cs else c :: cs

/-- Model of Go strings.TrimSpace. -/
def goTrimSpace (s : String) : String :=
  ⟨(dropLeadWs (dropLeadWs s.data.reverse).reverse)⟩

/-- Substring containment on character lists (model of Go strings.Contains). -/
def listContainsSub (sub : List Char) : List Char → Bool
  | [] => sub.isEmpty
  | c :: rest => List.isPrefixOf sub (c :: rest) || listContainsSub sub rest

/-- Model of Go strings.Contains. -/
def containsSub (s sub : String) : Bool := listContainsSub sub.data s.data

/-- Model of Go strings.HasPrefix. -/
def goStartsWith (s pre : String) : Bool := List.isPrefixOf pre.data s.data

/-- Model of Go strings.HasSuffix. -/
def goEndsWith (s post : String) : Bool := List.isSuffixOf post.data s.data

/-- Model of Go strings.TrimPrefix. -/
def goTrimHead (s pre : String) : String :=
  if List.isPrefixOf pre.data s.data then ⟨s.data.drop pre.data.length⟩ else s

/-- Model of Go strings.TrimSuffix. -/
def goTrimTail (s post : String) : String :=
  if List.isSuffixOf post.data s.data then
    ⟨s.data.take (s.data.length - post.data.length)⟩
  else s

/-- Model of Go strings.Trim with a cutset: removes leading and trailing
characters belonging to the cutset. -/
def goTrimAny (s cutset : String) : String :=
  ⟨((s.data.dropWhile (fun c => cutset.data.contains c)).reverse.dropWhile
      (fun c => cutset.data.contains c)).reverse⟩

/-- Index of the last occurrence of pat in l (model of Go strings.LastIndex,
at character granularity). -/
def lastIndexOfSub (pat : List Char) (l : List Char) : Option Nat :=
  ((List.range (l.length + 1)).filter (fun i => List.isPrefixOf pat (l.drop i))).getLast?

/-- Split a character list at every character satisfying p. -/
def splitPred (p : Char → Bool) : List Char → List (List Char)
  | [] => [[]]
  | x :: xs =>
    let r := splitPred p xs
    if p x then [] :: r
    else
      match r with
      | h :: t => (x :: h) :: t
      | [] => [[x]]

/-- Model of Go strings.Fields: split on whitespace, dropping empty pieces. -/
def goFields (s : String) : List String :=
  ((splitPred Char.isWhitespace s.data).filter (fun w => w ≠ [])).map String.mk

/-- Go fmt %t rendering of a boolean. -/
def boolStr (b : Bool) : String := if b then "true" else "false"

/-- Model of the Go string less-than comparison: lexicographic on the
character sequence (UTF-8 byte order and code point order agree). -/
def strLt (a b : String) : Bool := decide (a.data < b.data)

/-! ## Record types (main.go) -/

/-- LoginItem record (main.go). -/
structure LoginItem where
  name : String
  path : String
  hidden : Bool
  deriving DecidableEq, Repr, Inhabited

/-- BackgroundItem record (main.go); disabled is the tri-state field,
none meaning unknown. -/
structure BackgroundItem where
  label : String
  path : String
  scope : String
  kind : String
  loaded : Bool
  disabled : Option Bool
  deriving DecidableEq, Repr, Inhabited

/-- SystemExtensionItem record (main.go). -/
structure SystemExtensionItem where
  category : String
  enabled : Bool
  active : Bool
  teamID : String
  bundleID : String
  version : String
  name : String
  state : String
  deriving DecidableEq, Repr, Inhabited

/-! ## Comparison sort (model of the sort.Slice calls) -/

/-- Insert into a list sorted by the complement of a strict less relation. -/
def insertLess {α : Type} (less : α → α → Bool) (a : α) : List α → List α
  | [] => [a]
  | b :: bs => if less b a then b :: insertLess less a bs else a :: b :: bs

/-- Comparison sort with a Go sort.Slice style less function; the output is
sorted so that for positions i before j, less applied to the j-th and i-th
elements is false. -/
def sortByLess {α : Type} (less : α → α → Bool) : List α → List α
  | [] => []
  | a :: as => insertLess less a (sortByLess less as)

/-! ## Comparators of the three sort.Slice calls in main.go -/

/-- Less function of the login item sort: case-insensitive name. -/
def loginLess (a b : LoginItem) : Bool :=
  strLt (goToLower a.name) (goToLower b.name)

/-- Less function of the background item sort: scope, then label. -/
def bgLess (a b : BackgroundItem) : Bool :=
  if a.scope ≠ b.scope then strLt a.scope b.scope else strLt a.label b.label

/-- Less function of the system extension sort: category, then name. -/
def extLess (a b : SystemExtensionItem) : Bool :=
  if a.category ≠ b.category then strLt a.category b.category
  else strLt a.name b.name

/-! ## parseBundleVersion (main.go) -/

/-- parseBundleVersion: split a combined "bundleID (version)" column on the
last " (" together with a trailing ")". -/
def parseBundleVersion (value : String) : String × String :=
  match lastIndexOfSub (" (").data value.data with
  | none => (value, "")
  | some i =>
    if goEndsWith value ")" then
      (⟨value.data.take i⟩, goTrimTail (goTrimHead ⟨value.data.drop (i + 1)⟩ "(") ")")
    else (value, "")

/-! ## launchDomain and the delete mutator (main.go) -/

/-- launchDomain: resolve a scope string to a launchd domain target.  The
user branch (user.Current plus uid formatting) is an OS call abstracted as
the userDomain argument. -/
def launchDomain (userDomain : Except String String) (scope : String) :
    Except String String :=
  if goToLower scope = "system" then .ok "system"
  else if goToLower scope = "user" then userDomain
  else .error "scope must be user or system"

/-- isIgnorableBootoutError: case-insensitive substring match against the
fixed benign phrase set. -/
def isIgnorableBootoutError (err : String) : Bool :=
  let msg := goToLower err
  containsSub msg "no such process" ||
  containsSub msg "service could not be found" ||
  containsSub msg "not found" ||
  containsSub msg "domain does not support specified action"

deriving instance DecidableEq for Except

/-- Outcome of os.Remove on a path. -/
inductive RemoveResult where
  | ok : RemoveResult
  | notExist : RemoveResult
  | failed (msg : String) : RemoveResult
  deriving DecidableEq, Repr

/-- Environment of deleteBackgroundItem: results of the external calls it
performs (filepath.Abs, user domain resolution, launchctl bootout,
os.Remove). -/
structure DeleteEnv where
  absPath : String → Except String String
  userDomain : Except String String
  bootout : String → Except String Unit
  remove : String → RemoveResult

/-- Result of deleteBackgroundItem together with whether the plist removal
was attempted at all. -/
structure DeleteOutcome where
  result : Except String Unit
  removeAttempted : Bool
  deriving DecidableEq, Repr

/-- deleteBackgroundItem: two-phase delete — bootout the label from the
resolved domain (tolerating the benign failures), then remove the plist
file (tolerating an already-absent file). -/
def deleteBackgroundItem (env : DeleteEnv) (label plistPath scope : String) :
    DeleteOutcome :=
  match env.absPath plistPath with
  | .error e => ⟨.error e, false⟩
  | .ok absp =>
    match launchDomain env.userDomain scope with
    | .error e => ⟨.error e, false⟩
    | .ok domain =>
      let afterBootout : DeleteOutcome :=
        match env.remove absp with
        | .notExist => ⟨.ok (), true⟩
        | .failed e => ⟨.error ("remove plist " ++ absp ++ ": " ++ e), true⟩
        | .ok => ⟨.ok (), true⟩
      match env.bootout (domain ++ "/" ++ label) with
      | .ok _ => afterBootout
      | .error e =>
        if isIgnorableBootoutError e then afterBootout
        else ⟨.error ("bootout failed for " ++ label ++ ": " ++ e), false⟩

/-! ## listLoginItems (main.go) -/

/-- Environment of listLoginItems: the osascript invocation result and the
json.Unmarshal library call on its trimmed output. -/
structure LoginEnv where
  osa : Except String String
  parse : String → Except String (List LoginItem)

/-- listLoginItems: run the enumeration script, parse the JSON array, sort
by case-insensitive name. -/
def listLoginItems (env : LoginEnv) : Except String (List LoginItem) :=
  match env.osa with
  | .error e => .error ("osascript login list failed: " ++ e)
  | .ok stdout =>
    match env.parse (goTrimSpace stdout) with
    | .error e => .error ("parse login items: " ++ e)
    | .ok items => .ok (sortByLess loginLess items)

/-! ## listBackgroundItems (main.go) -/

/-- A scanned plist directory together with the scope and kind it implies. -/
structure DirSpec where
  scope : String
  kind : String
  dir : String
  deriving DecidableEq, Repr

/-- One directory entry as returned by os.ReadDir. -/
structure DirEntry where
  name : String
  isDir : Bool
  deriving DecidableEq, Repr

/-- Outcome of os.ReadDir on a directory. -/
inductive DirRead where
  | notExist : DirRead
  | failed (msg : String) : DirRead
  | ok (entries : List DirEntry) : DirRead

/-- Environment of listBackgroundItems: home directory lookup, user launchd
domain resolution, the launchctl list and print-disabled invocations
(abstracted past their line parsers), directory reads, and PlistBuddy
stdout per path. -/
structure BGEnv where
  home : Except String String
  userDomain : Except String String
  loadedUserLabels : Except String (List String)
  printDisabled : String → Except String (List (String × Bool))
  readDir : String → DirRead
  plistBuddy : String → Except String String

/-- readPlistLabel: PlistBuddy Print :Label with trimmed stdout. -/
def readPlistLabel (env : BGEnv) (path : String) : Except String String :=
  match env.plistBuddy path with
  | .error e => .error e
  | .ok out => .ok (goTrimSpace out)

/-- The inner entry loop of listBackgroundItems for one directory: keep
plain .plist files with a non-empty label; loaded only for user scope via
the loaded-label set; disabled only from the disabled map of the directory
scope. -/
def scanDirEntries (env : BGEnv) (loadedUser : List String)
    (dbs : String → Option (List (String × Bool))) (d : DirSpec) :
    List DirEntry → List BackgroundItem
  | [] => []
  | e :: es =>
    let rest := scanDirEntries env loadedUser dbs d es
    if e.isDir || !(goEndsWith (goToLower e.name) ".plist") then rest
    else
      match readPlistLabel env (d.dir ++ "/" ++ e.name) with
      | .error _ => rest
      | .ok label =>
        if label = "" then rest
        else
          { label := label
            path := d.dir ++ "/" ++ e.name
            scope := d.scope
            kind := d.kind
            loaded := decide (d.scope = "user") && loadedUser.contains label
            disabled := (dbs d.scope).bind (fun mp => List.lookup label mp) } :: rest

/-- The outer directory loop of listBackgroundItems: a missing directory is
silently skipped, an unreadable one becomes a warning. -/
def scanDirs (env : BGEnv) (loadedUser : List String)
    (dbs : String → Option (List (String × Bool))) :
    List DirSpec → List BackgroundItem × List String
  | [] => ([], [])
  | d :: ds =>
    let rest := scanDirs env loadedUser dbs ds
    match env.readDir d.dir with
    | .notExist => rest
    | .failed e => (rest.1, ("could not read " ++ d.dir ++ ": " ++ e) :: rest.2)
    | .ok entries => (scanDirEntries env loadedUser dbs d entries ++ rest.1, rest.2)

/-- Best-effort loaded-label set: a failed launchctl list is swallowed. -/
def bgLoadedUser (env : BGEnv) (scope : String) : List String :=
  if scope = "user" ∨ scope = "all" then
    match env.loadedUserLabels with
    | .ok ls => ls
    | .error _ => []
  else []

/-- User-scope disabled map fetch with its warning: absent when the scope
does not include user, the domain resolution failed, or the fetch failed
(the last case also records a warning). -/
def bgUserDisabled (env : BGEnv) (scope : String) :
    Option (List (String × Bool)) × List String :=
  if scope = "user" ∨ scope = "all" then
    match env.userDomain with
    | .error _ => (none, [])
    | .ok dom =>
      match env.printDisabled dom with
      | .error e => (none, ["could not read user disabled state: " ++ e])
      | .ok m => (some m, [])
  else (none, [])

/-- System-scope disabled map fetch with its warning. -/
def bgSysDisabled (env : BGEnv) (scope : String) :
    Option (List (String × Bool)) × List String :=
  if scope = "system" ∨ scope = "all" then
    match env.printDisabled "system" with
    | .error e => (none, ["could not read system disabled state (try sudo): " ++ e])
    | .ok m => (some m, [])
  else (none, [])

/-- Home directory resolution step of listBackgroundItems: only consulted
when the scope includes user; its failure is fatal there. -/
def bgHomeRes (env : BGEnv) (scope : String) : Except String (Option String) :=
  if scope = "user" ∨ scope = "all" then
    match env.home with
    | .error e => .error e
    | .ok h => .ok (some h)
  else .ok none

/-- The directory list scanned for a scope: the user LaunchAgents
directory when the home lookup ran, then the two system directories when
the scope includes system. -/
def bgDirs (scope : String) (homeOpt : Option String) : List DirSpec :=
  (match homeOpt with
   | some home => [⟨"user", "agent", home ++ "/Library/LaunchAgents"⟩]
   | none => []) ++
  (if scope = "system" ∨ scope = "all" then
    [⟨"system", "agent", "/Library/LaunchAgents"⟩,
     ⟨"system", "daemon", "/Library/LaunchDaemons"⟩]
   else [])

/-- The disabledByScope map of listBackgroundItems as a function of the
item scope key. -/
def bgDisabledByScope (env : BGEnv) (scope : String) :
    String → Option (List (String × Bool)) :=
  fun s =>
    if s = "user" then (bgUserDisabled env scope).1
    else if s = "system" then (bgSysDisabled env scope).1
    else none

/-- listBackgroundItems: scan the scope-selected plist directories, join the
loaded and disabled annotations, and sort by scope then label; returns the
items and the non-fatal warnings. -/
def listBackgroundItems (env : BGEnv) (scope0 : String) :
    Except String (List BackgroundItem × List String) :=
  let scope := goToLower scope0
  if scope ≠ "user" ∧ scope ≠ "system" ∧ scope ≠ "all" then
    .error "scope must be user, system, or all"
  else
    match bgHomeRes env scope with
    | .error e => .error e
    | .ok homeOpt =>
      let scanned :=
        scanDirs env (bgLoadedUser env scope) (bgDisabledByScope env scope)
          (bgDirs scope homeOpt)
      .ok (sortByLess bgLess scanned.1,
           ((bgUserDisabled env scope).2 ++ (bgSysDisabled env scope).2) ++ scanned.2)

/-! ## listSystemExtensions (main.go) -/

/-- splitTabColumns: split a line on tabs, trim each piece, drop empties. -/
def splitTabColumns (line : String) : List String :=
  ((splitPred (fun c => c = Char.ofNat 9) line.data).map
      (fun w => goTrimSpace ⟨w⟩)).filter (fun p => p ≠ "")

/-- One step of the systemextensionsctl output scanner: carries the current
category and the accumulated items. -/
def extScanStep (acc : String × List SystemExtensionItem) (rawLine : String) :
    String × List SystemExtensionItem :=
  let line := goTrimSpace rawLine
  if line = "" || goEndsWith line "extension(s)" then acc
  else if goStartsWith line "--- " then
    let parts := goFields line
    if parts.length ≥ 2 then (parts.getD 1 "", acc.2) else acc
  else if goStartsWith line "enabled" then acc
  else
    let cols := splitTabColumns line
    if cols.length < 6 then acc
    else
      let bv := parseBundleVersion (cols.getD 3 "")
      let state := goTrimAny (cols.getD 5 "") "[]"
      (acc.1,
       acc.2 ++ [{ category := acc.1
                   enabled := cols.getD 0 "" = "*"
                   active := cols.getD 1 "" = "*"
                   teamID := cols.getD 2 ""
                   bundleID := bv.1
                   version := bv.2
                   name := cols.getD 4 ""
                   state := state }])

/-- Environment of listSystemExtensions: the systemextensionsctl list
invocation, given as its scanned output lines. -/
structure ExtEnv where
  output : Except String (List String)

/-- listSystemExtensions: scan the tool output line by line, then sort by
category then name. -/
def listSystemExtensions (env : ExtEnv) : Except String (List SystemExtensionItem) :=
  match env.output with
  | .error e => .error e
  | .ok lines =>
    .ok (sortByLess extLess (lines.foldl extScanStep ("", [])).2)

/-! ## Interactive browser (the tui source file) -/

/-- matchesLoginFilter: case-insensitive substring match on name or path;
a blank query matches everything. -/
def matchesLoginFilter (it : LoginItem) (q0 : String) : Bool :=
  let q := goTrimSpace (goToLower q0)
  if q = "" then true
  else containsSub (goToLower it.name) q || containsSub (goToLower it.path) q

/-- matchesBackgroundFilter: match on label, path, scope or kind. -/
def matchesBackgroundFilter (it : BackgroundItem) (q0 : String) : Bool :=
  let q := goTrimSpace (goToLower q0)
  if q = "" then true
  else
    containsSub (goToLower it.label) q ||
    containsSub (goToLower it.path) q ||
    containsSub (goToLower it.scope) q ||
    containsSub (goToLower it.kind) q

/-- matchesExtensionsFilter: match on category, team, bundle, name, state. -/
def matchesExtensionsFilter (it : SystemExtensionItem) (q0 : String) : Bool :=
  let q := goTrimSpace (goToLower q0)
  if q = "" then true
  else
    containsSub (goToLower it.category) q ||
    containsSub (goToLower it.teamID) q ||
    containsSub (goToLower it.bundleID) q ||
    containsSub (goToLower it.name) q ||
    containsSub (goToLower it.state) q

/-- trimLastRune: drop the final code point of the filter text. -/
def trimLastRune (s : String) : String := ⟨s.data.dropLast⟩

/-- A key event: the bubbletea String rendering of the key and whether it
is a plain runes key. -/
structure KeyMsg where
  str : String
  isRunes : Bool
  deriving DecidableEq, Repr

/-- The messages dispatched to uiModel.Update. -/
inductive Msg where
  | windowSize (w h : Int) : Msg
  | loginLoaded (items : List LoginItem) (err : Option String) : Msg
  | backgroundLoaded (items : List BackgroundItem) (warnings : List String)
      (err : Option String) : Msg
  | extensionsLoaded (items : List SystemExtensionItem) (err : Option String) : Msg
  | actionDone (status : String) (err : Option String) : Msg
  | key (k : KeyMsg) : Msg
  deriving DecidableEq, Repr

/-- The commands uiModel.Update can return (tea.Cmd values); tableUpdate
stands for delegating the message to the external bubbles table widget. -/
inductive Cmd where
  | none : Cmd
  | quit : Cmd
  | refreshLogin : Cmd
  | refreshBackground : Cmd
  | refreshExtensions : Cmd
  | removeLogin (path : String) : Cmd
  | toggleBackground (label scope : String) (enable : Bool) : Cmd
  | deleteBackground (item : BackgroundItem) : Cmd
  | tableUpdate : Cmd
  deriving DecidableEq, Repr

/-- The uiModel state.  rows and cursor model the observable state of the
embedded table widget (its row list and cursor position); the three row
maps are the filtered-row-to-snapshot-index mappings. -/
structure UIModel where
  width : Int
  height : Int
  tab : Nat
  rows : List (List String)
  cursor : Int
  loginItems : List LoginItem
  loginRows : List Nat
  bgItems : List BackgroundItem
  bgRows : List Nat
  extItems : List SystemExtensionItem
  extRows : List Nat
  warnings : List String
  filter : String
  filterActive : Bool
  confirmMode : Bool
  confirmText : String
  pendingBGDel : Option BackgroundItem
  status : String
  err : Option String
  deriving DecidableEq, Repr

/-- Index part of the row rebuild loop: the snapshot indices of the items
passing the filter, in order. -/
def filterIndicesFrom {α : Type} (p : α → Bool) : Nat → List α → List Nat
  | _, [] => []
  | i, x :: xs =>
    if p x then i :: filterIndicesFrom p (i + 1) xs
    else filterIndicesFrom p (i + 1) xs

/-- Row-to-source-index mapping built by rebuildTable. -/
def filterIndices {α : Type} (p : α → Bool) (xs : List α) : List Nat :=
  filterIndicesFrom p 0 xs

/-- Rendered login row. -/
def renderLoginRow (it : LoginItem) : List String :=
  [it.name, boolStr it.hidden, it.path]

/-- Rendered background row: the disabled cell shows a question mark when
the tri-state is unknown. -/
def renderBackgroundRow (it : BackgroundItem) : List String :=
  [it.scope, it.kind, boolStr it.loaded,
   (match it.disabled with | Option.none => "?" | some b => boolStr b),
   it.label, it.path]

/-- Rendered extension row. -/
def renderExtensionRow (it : SystemExtensionItem) : List String :=
  [it.category, boolStr it.enabled, boolStr it.active, it.teamID,
   it.bundleID, it.name, it.state]

/-- End of rebuildTable: clamp the requested cursor into the new row range
(0 when there are no rows). -/
def clampCursor (rows : List (List String)) (cursor : Int) : Int :=
  if rows.length = 0 then 0
  else
    let c := if cursor < 0 then 0 else cursor
    if c ≥ (rows.length : Int) then (rows.length : Int) - 1 else c

/-- rebuildTable: rebuild the visible rows and the row map of the active
tab from that tab's snapshot and the filter text, then clamp the cursor.
Only the active tab's row map is rewritten, as in the source.  Column
width arithmetic is pure rendering and is not modelled. -/
def UIModel.rebuildTable (m : UIModel) (cursor : Int) : UIModel :=
  if m.tab = 0 then
    let p := fun it => matchesLoginFilter it m.filter
    let rows := (m.loginItems.filter p).map renderLoginRow
    { m with rows := rows, loginRows := filterIndices p m.loginItems,
             cursor := clampCursor rows cursor }
  else if m.tab = 1 then
    let p := fun it => matchesBackgroundFilter it m.filter
    let rows := (m.bgItems.filter p).map renderBackgroundRow
    { m with rows := rows, bgRows := filterIndices p m.bgItems,
             cursor := clampCursor rows cursor }
  else
    let p := fun it => matchesExtensionsFilter it m.filter
    let rows := (m.extItems.filter p).map renderExtensionRow
    { m with rows := rows, extRows := filterIndices p m.extItems,
             cursor := clampCursor rows cursor }

/-- Zero LoginItem value. -/
def zeroLoginItem : LoginItem := ⟨"", "", false⟩

/-- Zero BackgroundItem value. -/
def zeroBackgroundItem : BackgroundItem := ⟨"", "", "", "", false, Option.none⟩

/-- selectedLoginItem: resolve the cursor through the login row map with
full bounds checks; the Bool is the ok flag. -/
def UIModel.selectedLoginItem (m : UIModel) : LoginItem × Bool :=
  if m.cursor < 0 then (zeroLoginItem, false)
  else
    match m.loginRows.get? m.cursor.toNat with
    | Option.none => (zeroLoginItem, false)
    | some itemIdx =>
      match m.loginItems.get? itemIdx with
      | Option.none => (zeroLoginItem, false)
      | some it => (it, true)

/-- selectedBackgroundItem: resolve the cursor through the background row
map with full bounds checks. -/
def UIModel.selectedBackgroundItem (m : UIModel) : BackgroundItem × Bool :=
  if m.cursor < 0 then (zeroBackgroundItem, false)
  else
    match m.bgRows.get? m.cursor.toNat with
    | Option.none => (zeroBackgroundItem, false)
    | some itemIdx =>
      match m.bgItems.get? itemIdx with
      | Option.none => (zeroBackgroundItem, false)
      | some it => (it, true)

/-- The confirm-pending branch of the key handler. -/
def updateKeyConfirm (m : UIModel) (k : KeyMsg) : UIModel × Cmd :=
  if k.str = "ctrl+c" then (m, .quit)
  else if k.str = "y" then
    match m.pendingBGDel with
    | some item =>
      ({ m with pendingBGDel := Option.none, confirmMode := false, confirmText := "",
                status := "Deleting background item..." },
       .deleteBackground item)
    | Option.none =>
      ({ m with pendingBGDel := Option.none, confirmMode := false, confirmText := "" },
       .none)
  else if k.str = "n" ∨ k.str = "esc" then
    ({ m with pendingBGDel := Option.none, confirmMode := false, confirmText := "",
              status := "Delete cancelled" },
     .none)
  else (m, .none)

/-- The filter-editing branch of the key handler. -/
def updateKeyFilter (m : UIModel) (k : KeyMsg) : UIModel × Cmd :=
  if k.str = "ctrl+c" then (m, .quit)
  else if k.str = "enter" ∨ k.str = "esc" then
    ({ m with filterActive := false,
              status := "Filter applied (" ++ toString m.rows.length ++ " results)" },
     .none)
  else if k.str = "backspace" then
    if m.filter ≠ "" then
      ((UIModel.rebuildTable { m with filter := trimLastRune m.filter } 0), .none)
    else (m, .none)
  else if k.isRunes then
    ((UIModel.rebuildTable { m with filter := m.filter ++ k.str } 0), .none)
  else (m, .none)

/-- The normal-mode branch of the key handler. -/
def updateKeyNormal (m : UIModel) (k : KeyMsg) : UIModel × Cmd :=
  if k.str = "ctrl+c" ∨ k.str = "q" then (m, .quit)
  else if k.str = "tab" ∨ k.str = "right" ∨ k.str = "l" then
    ((UIModel.rebuildTable { m with tab := (m.tab + 1) % 3 } 0), .none)
  else if k.str = "shift+tab" ∨ k.str = "left" ∨ k.str = "h" then
    ((UIModel.rebuildTable { m with tab := (m.tab + 2) % 3 } 0), .none)
  else if k.str = "r" then
    if m.tab = 0 then ({ m with status := "Refreshing login items..." }, .refreshLogin)
    else if m.tab = 2 then
      ({ m with status := "Refreshing system extensions..." }, .refreshExtensions)
    else ({ m with status := "Refreshing background items..." }, .refreshBackground)
  else if k.str = "/" ∨ k.str = "f" then
    ({ m with filterActive := true,
              status := "Filter mode: type to filter, enter/esc to finish" },
     .none)
  else if k.str = "c" then
    if m.filter ≠ "" then
      ({ UIModel.rebuildTable { m with filter := "" } 0 with status := "Filter cleared" },
       .none)
    else (m, .none)
  else if k.str = "x" then
    if m.tab = 0 then
      match UIModel.selectedLoginItem m with
      | (_, false) => (m, .none)
      | (item, true) =>
        ({ m with status := "Removing login item..." }, .removeLogin item.path)
    else if m.tab = 1 then
      match UIModel.selectedBackgroundItem m with
      | (_, false) => (m, .none)
      | (item, true) =>
        ({ m with pendingBGDel := some item, confirmMode := true,
                  confirmText := "Delete " ++ item.label ++
                    " and remove plist file? (y/n)" },
         .none)
    else (m, .tableUpdate)
  else if k.str = "e" ∨ k.str = "d" then
    if m.tab = 1 then
      match UIModel.selectedBackgroundItem m with
      | (_, false) => (m, .none)
      | (item, true) =>
        ({ m with status := "Applying background item change..." },
         .toggleBackground item.label item.scope (k.str = "e"))
    else (m, .tableUpdate)
  else (m, .tableUpdate)

/-- uiModel.Update: the full message dispatch of the browser. -/
def UIModel.update (m : UIModel) (msg : Msg) : UIModel × Cmd :=
  match msg with
  | .windowSize w h =>
    ((UIModel.rebuildTable { m with width := w, height := h } 0), .none)
  | .loginLoaded items e =>
    (match e with
     | some e =>
       ((UIModel.rebuildTable
           { m with err := some e, status := "Failed to load login items" } 0), .none)
     | Option.none =>
       ((UIModel.rebuildTable
           { m with loginItems := items, err := Option.none,
                    status := "Loaded " ++ toString items.length ++ " login items" } 0),
        .none))
  | .backgroundLoaded items warnings e =>
    (match e with
     | some e =>
       ((UIModel.rebuildTable
           { m with err := some e, status := "Failed to load background items" } 0),
        .none)
     | Option.none =>
       ((UIModel.rebuildTable
           { m with bgItems := items, warnings := warnings, err := Option.none,
                    status := "Loaded " ++ toString items.length ++
                      " background items" } 0),
        .none))
  | .extensionsLoaded items e =>
    (match e with
     | some e =>
       ((UIModel.rebuildTable
           { m with err := some e, status := "Failed to load system extensions" } 0),
        .none)
     | Option.none =>
       ((UIModel.rebuildTable
           { m with extItems := items, err := Option.none,
                    status := "Loaded " ++ toString items.length ++
                      " system extensions" } 0),
        .none))
  | .actionDone s e =>
    (match e with
     | some e => ({ m with err := some e, status := "Action failed" }, .none)
     | Option.none =>
       let m1 : UIModel := { m with err := Option.none, status := s }
       if m1.tab = 0 then (m1, .refreshLogin)
       else if m1.tab = 2 then (m1, .refreshExtensions)
       else (m1, .refreshBackground))
  | .key k =>
    if m.confirmMode then updateKeyConfirm m k
    else if m.filterActive then updateKeyFilter m k
    else updateKeyNormal m k

/-! ## Generic lexicographic less function shared by the bg and ext sorts -/

/-- Two-key lexicographic strict comparison, the common shape of bgLess and
extLess. -/
def pairLess (s1 l1 s2 l2 : String) : Bool :=
  if s1 ≠ s2 then strLt s1 s2 else strLt l1 l2

/-! ## Concrete fixtures used by witnesses and counterexamples -/

/-- Delete environment whose bootout fails with a non-benign message. -/
def envDeleteFatal : DeleteEnv where
  absPath := fun _ => .ok "/tmp/a.plist"
  userDomain := .ok "gui/501"
  bootout := fun _ => .error "Boot-out failed: 5: Input/output error"
  remove := fun _ => .notExist

/-- Delete environment whose bootout fails benignly and whose plist file is
already absent. -/
def envDeleteIdem : DeleteEnv where
  absPath := fun _ => .ok "/tmp/a.plist"
  userDomain := .ok "gui/501"
  bootout := fun _ => .error "Boot-out failed: 3: No such process"
  remove := fun _ => .notExist

/-- Background environment in which the user disabled fetch succeeds with
one entry while the system fetch fails, and one system-scope item carrying
the same label exists. -/
def envBGScopes : BGEnv where
  home := .ok "/Users/t"
  userDomain := .ok "gui/501"
  loadedUserLabels := .ok []
  printDisabled := fun dom =>
    if dom = "gui/501" then .ok [("com.a", true)] else .error "Could not find service"
  readDir := fun d =>
    if d = "/Library/LaunchAgents" then .ok [⟨"com.a.plist", false⟩]
    else if d = "/Users/t/Library/LaunchAgents" then .ok []
    else .notExist
  plistBuddy := fun p =>
    if p = "/Library/LaunchAgents/com.a.plist" then .ok "com.a" else .error "x"

/-- Login environment whose parsed items arrive out of order. -/
def envLoginSort : LoginEnv where
  osa := .ok "[]"
  parse := fun _ =>
    .ok [⟨"Raycast", "/Applications/Raycast.app", false⟩,
         ⟨"Alpha", "/Applications/Alpha.app", false⟩]

/-- Background environment delivering two user items out of label order. -/
def envBGSort : BGEnv where
  home := .ok "/Users/t"
  userDomain := .ok "gui/501"
  loadedUserLabels := .ok ["com.b"]
  printDisabled := fun _ => .error "denied"
  readDir := fun d =>
    if d = "/Users/t/Library/LaunchAgents" then
      .ok [⟨"b.plist", false⟩, ⟨"a.plist", false⟩]
    else .notExist
  plistBuddy := fun p =>
    if p = "/Users/t/Library/LaunchAgents/b.plist" then .ok "com.b"
    else if p = "/Users/t/Library/LaunchAgents/a.plist" then .ok "com.a"
    else .error "x"

/-- Extension environment with one category and two rows out of name order. -/
def envExtSort : ExtEnv where
  output := .ok
    ["--- com.apple.system_extension.network_extension",
     "enabled\tactive\tteamID\tbundleID (version)\tname\t[state]",
     "*\t*\tW5364U7YZB\tio.zeta.ext (2.0/2)\tZeta Extension\t[activated enabled]",
     "*\t*\tW5364U7YZB\tio.alpha.ext (1.0/1)\tAlpha Extension\t[activated enabled]"]

/-- An all-empty browser model used as the base of the UI fixtures. -/
def baseModel : UIModel :=
  ⟨120, 30, 0, [], 0, [], [], [], [], [], [], [], "", false, false, "",
   Option.none, "", Option.none⟩

/-- Login item fixture. -/
def loginAlpha : LoginItem := ⟨"Alpha", "/Applications/Alpha.app", false⟩

/-- Login item fixture. -/
def loginRaycast : LoginItem := ⟨"Raycast", "/Applications/Raycast.app", false⟩

/-- Background item fixture. -/
def bgFooAgent : BackgroundItem :=
  ⟨"com.foo.agent", "/tmp/a.plist", "user", "agent", true, Option.none⟩

/-- Background item fixture. -/
def bgFooAlpha : BackgroundItem :=
  ⟨"com.foo.alpha", "/tmp/al.plist", "user", "agent", true, Option.none⟩

/-- Background item fixture. -/
def bgFooRaycast : BackgroundItem :=
  ⟨"com.foo.raycast", "/tmp/r.plist", "user", "agent", true, Option.none⟩

/-- Browser model with populated snapshots and the filter text ray. -/
def mFilterRay : UIModel :=
  { baseModel with loginItems := [loginAlpha, loginRaycast],
                   bgItems := [bgFooAlpha, bgFooRaycast], filter := "ray" }

/-- Browser model in confirm-pending state with a captured item. -/
def mConfirm : UIModel :=
  { baseModel with tab := 1, confirmMode := true,
                   confirmText := "Delete com.foo.agent and remove plist file? (y/n)",
                   pendingBGDel := some bgFooAgent,
                   bgItems := [bgFooAgent], bgRows := [0],
                   rows := [renderBackgroundRow bgFooAgent] }

/-- Browser model in filter-editing state with filter text a. -/
def mEditing : UIModel :=
  { baseModel with filterActive := true, filter := "a",
                   loginItems := [loginRaycast] }

/-- Browser model in normal state with a non-empty filter. -/
def mFiltered : UIModel :=
  { baseModel with filter := "abc", loginItems := [loginRaycast] }

/-- Browser model on the background tab with a valid selection. -/
def mToggle : UIModel :=
  { baseModel with tab := 1, bgItems := [bgFooAgent], bgRows := [0],
                   rows := [renderBackgroundRow bgFooAgent], cursor := 0 }

/-- Browser model on the login tab with the cursor on row 1. -/
def mTabSwitch : UIModel :=
  { baseModel with tab := 0, cursor := 1,
                   loginItems := [loginAlpha, loginRaycast], loginRows := [0, 1],
                   rows := [renderLoginRow loginAlpha, renderLoginRow loginRaycast],
                   bgItems := [bgFooAlpha, bgFooRaycast] }

/-- Browser model with an empty login row map (no valid selection). -/
def mNoSel : UIModel := baseModel

/-- Browser model on the background tab whose row map points past the
refreshed (now empty) background snapshot. -/
def mNoSelBG : UIModel :=
  { baseModel with tab := 1, cursor := 0, bgRows := [3], bgItems := [] }

/-- The system-scope item produced by envBGScopes. -/
def bgSysComA : BackgroundItem :=
  ⟨"com.a", "/Library/LaunchAgents/com.a.plist", "system", "agent", false,
   Option.none⟩

/-! # Theorems -/

/-! ## Sorting lemmas -/

theorem mem_insertLess {α : Type} (less : α → α → Bool) (a x : α) (l : List α) :
    x ∈ insertLess less a l ↔ x = a ∨ x ∈ l := by
  induction l with
  | nil => simp [insertLess]
  | cons b bs ih =>
    simp only [insertLess]
    by_cases h : less b a
    · rw [if_pos h]
      simp only [List.mem_cons, ih]
      tauto
    · rw [if_neg h]
      simp only [List.mem_cons]

theorem pairwise_insertLess {α : Type} (less : α → α → Bool)
    (asym : ∀ a b, less a b = true → less b a = false)
    (wtrans : ∀ a b c, less b a = false → less c b = false → less c a = false)
    (a : α) (l : List α)
    (h : l.Pairwise (fun x y => less y x = false)) :
    (insertLess less a l).Pairwise (fun x y => less y x = false) := by
  induction l with
  | nil => simp [insertLess]
  | cons b bs ih =>
    simp only [insertLess]
    rcases List.pairwise_cons.mp h with ⟨hb, hbs⟩
    by_cases hba : less b a
    · rw [if_pos hba]
      refine List.pairwise_cons.mpr ⟨?_, ih hbs⟩
      intro x hx
      rcases (mem_insertLess less a x bs).mp hx with rfl | hxbs
      · exact asym b x hba
      · exact hb x hxbs
    · rw [if_neg hba]
      refine List.pairwise_cons.mpr ⟨?_, h⟩
      intro x hx
      simp only [Bool.not_eq_true] at hba
      rcases List.mem_cons.mp hx with rfl | hxbs
      · exact hba
      · exact wtrans a b x hba (hb x hxbs)

theorem pairwise_sortByLess {α : Type} (less : α → α → Bool)
    (asym : ∀ a b, less a b = true → less b a = false)
    (wtrans : ∀ a b c, less b a = false → less c b = false → less c a = false)
    (l : List α) :
    (sortByLess less l).Pairwise (fun x y => less y x = false) := by
  induction l with
  | nil => simp [sortByLess]
  | cons a as ih => exact pairwise_insertLess less asym wtrans a _ ih

theorem mem_sortByLess {α : Type} (less : α → α → Bool) (x : α) (l : List α) :
    x ∈ sortByLess less l ↔ x ∈ l := by
  induction l with
  | nil => simp [sortByLess]
  | cons a as ih =>
    simp only [sortByLess, mem_insertLess, List.mem_cons, ih]

/-! ## Order facts for the three comparators -/

theorem strLt_eq_false_iff (a b : String) : strLt a b = false ↔ ¬ a < b := by
  unfold strLt
  rw [decide_eq_false_iff_not]
  exact not_congr String.lt_iff_toList_lt.symm

theorem strLt_eq_true_iff (a b : String) : strLt a b = true ↔ a < b := by
  unfold strLt
  rw [decide_eq_true_eq]
  exact String.lt_iff_toList_lt.symm

theorem pairLess_eq_false_iff (s1 l1 s2 l2 : String) :
    pairLess s1 l1 s2 l2 = false ↔ (s2 < s1 ∨ (s2 = s1 ∧ l2 ≤ l1)) := by
  unfold pairLess
  by_cases h : s1 = s2
  · subst h
    rw [if_neg (by simp)]
    rw [strLt_eq_false_iff, not_lt]
    simp [lt_irrefl]
  · rw [if_pos h]
    rw [strLt_eq_false_iff, not_lt]
    constructor
    · intro hle
      exact Or.inl (lt_of_le_of_ne hle (Ne.symm h))
    · intro hor
      rcases hor with hlt | ⟨heq, _⟩
      · exact le_of_lt hlt
      · exact absurd heq.symm h

theorem pairLess_eq_true_iff (s1 l1 s2 l2 : String) :
    pairLess s1 l1 s2 l2 = true ↔
      ((s1 ≠ s2 ∧ s1 < s2) ∨ (s1 = s2 ∧ l1 < l2)) := by
  unfold pairLess
  by_cases h : s1 = s2
  · subst h
    rw [if_neg (by simp)]
    rw [strLt_eq_true_iff]
    simp
  · rw [if_pos h]
    rw [strLt_eq_true_iff]
    simp [h]

theorem pairLess_asym (s1 l1 s2 l2 : String) :
    pairLess s1 l1 s2 l2 = true → pairLess s2 l2 s1 l1 = false := by
  intro h
  rcases (pairLess_eq_true_iff s1 l1 s2 l2).mp h with ⟨hne, hlt⟩ | ⟨heq, hlt⟩
  · exact (pairLess_eq_false_iff s2 l2 s1 l1).mpr (Or.inl hlt)
  · exact (pairLess_eq_false_iff s2 l2 s1 l1).mpr (Or.inr ⟨heq, le_of_lt hlt⟩)

theorem pairLess_wtrans (s1 l1 s2 l2 s3 l3 : String) :
    pairLess s2 l2 s1 l1 = false → pairLess s3 l3 s2 l2 = false →
    pairLess s3 l3 s1 l1 = false := by
  intro h12 h23
  rcases (pairLess_eq_false_iff s2 l2 s1 l1).mp h12 with a12 | ⟨e12, le12⟩ <;>
    rcases (pairLess_eq_false_iff s3 l3 s2 l2).mp h23 with a23 | ⟨e23, le23⟩
  · exact (pairLess_eq_false_iff s3 l3 s1 l1).mpr (Or.inl (lt_trans a12 a23))
  · exact (pairLess_eq_false_iff s3 l3 s1 l1).mpr (Or.inl (e23 ▸ a12))
  · exact (pairLess_eq_false_iff s3 l3 s1 l1).mpr (Or.inl (e12 ▸ a23))
  · exact (pairLess_eq_false_iff s3 l3 s1 l1).mpr
      (Or.inr ⟨e12.trans e23, le_trans le12 le23⟩)

theorem bgLess_eq_pairLess (a b : BackgroundItem) :
    bgLess a b = pairLess a.scope a.label b.scope b.label := rfl

theorem extLess_eq_pairLess (a b : SystemExtensionItem) :
    extLess a b = pairLess a.category a.name b.category b.name := rfl

theorem loginLess_asym (a b : LoginItem) :
    loginLess a b = true → loginLess b a = false := by
  unfold loginLess
  rw [strLt_eq_true_iff, strLt_eq_false_iff, not_lt]
  exact fun h => le_of_lt h

theorem loginLess_wtrans (a b c : LoginItem) :
    loginLess b a = false → loginLess c b = false → loginLess c a = false := by
  unfold loginLess
  rw [strLt_eq_false_iff, strLt_eq_false_iff, strLt_eq_false_iff, not_lt, not_lt,
    not_lt]
  exact fun h1 h2 => le_trans h1 h2

/-! ## Claim C9 -/

/-- Claim C9: parseBundleVersion splits the Tailscale sample column into the
bundle identifier and the parenthesised version, and for a value with no
trailing parenthesised version (no " (" occurrence, or no trailing close
parenthesis) it returns the whole string as the bundle id with an empty
version. -/
theorem c9_parse_bundle_version (v : String) :
    parseBundleVersion
        "io.tailscale.ipn.macsys.network-extension (1.94.1/101.94.1)" =
      ("io.tailscale.ipn.macsys.network-extension", "1.94.1/101.94.1")
    ∧ (lastIndexOfSub (" (").data v.data = Option.none →
        parseBundleVersion v = (v, ""))
    ∧ (goEndsWith v ")" = false → parseBundleVersion v = (v, "")) := by
  refine ⟨by decide, ?_, ?_⟩
  · intro h
    unfold parseBundleVersion
    rw [h]
  · intro h
    unfold parseBundleVersion
    cases hidx : lastIndexOfSub (" (").data v.data with
    | none => rfl
    | some i => simp [h]

/-- Witness for C9: a value with no " (" at all and a value with no
trailing close parenthesis both come back whole with an empty version. -/
theorem c9_parse_bundle_version_witness :
    (lastIndexOfSub (" (").data ("Tailscale").data = Option.none ∧
     parseBundleVersion "Tailscale" = ("Tailscale", "")) ∧
    (goEndsWith "io.x (1.0" ")" = false ∧
     parseBundleVersion "io.x (1.0" = ("io.x (1.0", "")) :=
  ⟨⟨by decide, (c9_parse_bundle_version "Tailscale").2.1 (by decide)⟩,
   ⟨by decide, (c9_parse_bundle_version "io.x (1.0").2.2 (by decide)⟩⟩

/-! ## Claim C1 -/

/-- Claim C1: deleteBackgroundItem attempts the bootout first; a
non-ignorable bootout failure returns an error with no removal attempted; an
ignorable failure or a success proceeds to the removal, where an
already-absent plist is a success (idempotent delete) and any other
filesystem error is fatal. -/
theorem c1_delete_two_phase (env : DeleteEnv)
    (label plistPath scope ap dom : String)
    (habs : env.absPath plistPath = .ok ap)
    (hdom : launchDomain env.userDomain scope = .ok dom) :
    (∀ e, env.bootout (dom ++ "/" ++ label) = .error e →
        isIgnorableBootoutError e = false →
        (deleteBackgroundItem env label plistPath scope).result =
          .error ("bootout failed for " ++ label ++ ": " ++ e) ∧
        (deleteBackgroundItem env label plistPath scope).removeAttempted = false)
    ∧ ((env.bootout (dom ++ "/" ++ label) = .ok () ∨
        (∃ e, env.bootout (dom ++ "/" ++ label) = .error e ∧
              isIgnorableBootoutError e = true)) →
       (deleteBackgroundItem env label plistPath scope).removeAttempted = true ∧
       (env.remove ap = .notExist →
         (deleteBackgroundItem env label plistPath scope).result = .ok ()) ∧
       (env.remove ap = .ok →
         (deleteBackgroundItem env label plistPath scope).result = .ok ()) ∧
       (∀ msg, env.remove ap = .failed msg →
         (deleteBackgroundItem env label plistPath scope).result =
           .error ("remove plist " ++ ap ++ ": " ++ msg))) := by
  constructor
  · intro e he hni
    simp [deleteBackgroundItem, habs, hdom, he, hni]
  · intro hok
    have hred : deleteBackgroundItem env label plistPath scope =
        (match env.remove ap with
         | .notExist => ⟨.ok (), true⟩
         | .failed e2 => ⟨.error ("remove plist " ++ ap ++ ": " ++ e2), true⟩
         | .ok => ⟨.ok (), true⟩) := by
      rcases hok with hb | ⟨e, hb, hig⟩
      · simp [deleteBackgroundItem, habs, hdom, hb]
      · simp [deleteBackgroundItem, habs, hdom, hb, hig]
    refine ⟨?_, ?_, ?_, ?_⟩
    · rw [hred]
      cases env.remove ap <;> rfl
    · intro hr
      rw [hred, hr]
    · intro hr
      rw [hred, hr]
    · intro msg hr
      rw [hred, hr]

/-- Witness for C1 at concrete environments: a fatal bootout aborts before
removal; a benign bootout with an already-absent plist is an idempotent
success. -/
theorem c1_delete_two_phase_witness :
    ((deleteBackgroundItem envDeleteFatal "com.x" "a.plist" "user").result =
        .error
          ("bootout failed for com.x: Boot-out failed: 5: Input/output error") ∧
     (deleteBackgroundItem envDeleteFatal "com.x" "a.plist" "user").removeAttempted =
        false) ∧
    ((deleteBackgroundItem envDeleteIdem "com.x" "a.plist" "user").removeAttempted =
        true ∧
     (deleteBackgroundItem envDeleteIdem "com.x" "a.plist" "user").result = .ok ()) := by
  constructor
  · exact (c1_delete_two_phase envDeleteFatal "com.x" "a.plist" "user"
      "/tmp/a.plist" "gui/501" rfl (by decide)).1
      "Boot-out failed: 5: Input/output error" rfl (by decide)
  · have h := (c1_delete_two_phase envDeleteIdem "com.x" "a.plist" "user"
      "/tmp/a.plist" "gui/501" rfl (by decide)).2
      (Or.inr ⟨"Boot-out failed: 3: No such process", rfl, by decide⟩)
    exact ⟨h.1, h.2.1 rfl⟩

/-! ## Result-shape lemmas for the aggregators -/

theorem listLoginItems_ok (env : LoginEnv) (items : List LoginItem)
    (h : listLoginItems env = .ok items) :
    ∃ raw, items = sortByLess loginLess raw := by
  unfold listLoginItems at h
  cases hosa : env.osa with
  | error e =>
    rw [hosa] at h
    simp at h
  | ok s =>
    rw [hosa] at h
    simp only [] at h
    cases hp : env.parse (goTrimSpace s) with
    | error e =>
      rw [hp] at h
      simp at h
    | ok raw =>
      rw [hp] at h
      simp only [Except.ok.injEq] at h
      exact ⟨raw, h.symm⟩

theorem listBackgroundItems_ok (env : BGEnv) (scope0 : String)
    (items : List BackgroundItem) (warns : List String)
    (h : listBackgroundItems env scope0 = .ok (items, warns)) :
    ∃ homeOpt, items = sortByLess bgLess
      (scanDirs env (bgLoadedUser env (goToLower scope0))
        (bgDisabledByScope env (goToLower scope0))
        (bgDirs (goToLower scope0) homeOpt)).1 := by
  simp only [listBackgroundItems] at h
  split at h
  · simp only [reduceCtorEq] at h
  · split at h
    · simp only [reduceCtorEq] at h
    · rename_i homeOpt heq
      simp only [Except.ok.injEq, Prod.mk.injEq] at h
      exact ⟨homeOpt, h.1.symm⟩

theorem listSystemExtensions_ok (env : ExtEnv) (items : List SystemExtensionItem)
    (h : listSystemExtensions env = .ok items) :
    ∃ raw, items = sortByLess extLess raw := by
  unfold listSystemExtensions at h
  cases ho : env.output with
  | error e =>
    rw [ho] at h
    simp at h
  | ok lines =>
    rw [ho] at h
    simp only [Except.ok.injEq] at h
    exact ⟨(lines.foldl extScanStep ("", [])).2, h.symm⟩

/-! ## Claim C5 -/

/-- Claim C5: every aggregated list is returned sorted — login items
ascending by case-insensitive name, background items by scope then label,
system extensions by category then name — whatever order the raw records
arrive in. -/
theorem c5_sorted_lists :
    (∀ (env : LoginEnv) (items : List LoginItem), listLoginItems env = .ok items →
       items.Pairwise (fun a b => goToLower a.name ≤ goToLower b.name))
  ∧ (∀ (env : BGEnv) (scope : String) (items : List BackgroundItem)
       (warns : List String), listBackgroundItems env scope = .ok (items, warns) →
       items.Pairwise (fun a b =>
         a.scope < b.scope ∨ (a.scope = b.scope ∧ a.label ≤ b.label)))
  ∧ (∀ (env : ExtEnv) (items : List SystemExtensionItem),
       listSystemExtensions env = .ok items →
       items.Pairwise (fun a b =>
         a.category < b.category ∨ (a.category = b.category ∧ a.name ≤ b.name))) := by
  refine ⟨?_, ?_, ?_⟩
  · intro env items h
    obtain ⟨raw, rfl⟩ := listLoginItems_ok env items h
    refine (pairwise_sortByLess loginLess loginLess_asym loginLess_wtrans raw).imp ?_
    intro a b hab
    unfold loginLess at hab
    rw [strLt_eq_false_iff, not_lt] at hab
    exact hab
  · intro env scope items warns h
    obtain ⟨homeOpt, rfl⟩ := listBackgroundItems_ok env scope items warns h
    refine (pairwise_sortByLess bgLess
      (fun a b => pairLess_asym a.scope a.label b.scope b.label)
      (fun a b c => pairLess_wtrans a.scope a.label b.scope b.label c.scope c.label)
      _).imp ?_
    intro a b hab
    rw [bgLess_eq_pairLess] at hab
    exact (pairLess_eq_false_iff b.scope b.label a.scope a.label).mp hab
  · intro env items h
    obtain ⟨raw, rfl⟩ := listSystemExtensions_ok env items h
    refine (pairwise_sortByLess extLess
      (fun a b => pairLess_asym a.category a.name b.category b.name)
      (fun a b c => pairLess_wtrans a.category a.name b.category b.name c.category c.name)
      _).imp ?_
    intro a b hab
    rw [extLess_eq_pairLess] at hab
    exact (pairLess_eq_false_iff b.category b.name a.category a.name).mp hab

/-- Witness for C5: concrete out-of-order inputs come back sorted in all
three aggregators. -/
theorem c5_sorted_lists_witness :
    ([⟨"Alpha", "/Applications/Alpha.app", false⟩,
      ⟨"Raycast", "/Applications/Raycast.app", false⟩] : List LoginItem).Pairwise
        (fun a b => goToLower a.name ≤ goToLower b.name) ∧
    ([⟨"com.a", "/Users/t/Library/LaunchAgents/a.plist", "user", "agent", false,
        Option.none⟩,
      ⟨"com.b", "/Users/t/Library/LaunchAgents/b.plist", "user", "agent", true,
        Option.none⟩] : List BackgroundItem).Pairwise
        (fun a b => a.scope < b.scope ∨ (a.scope = b.scope ∧ a.label ≤ b.label)) ∧
    ([⟨"com.apple.system_extension.network_extension", true, true, "W5364U7YZB",
        "io.alpha.ext", "1.0/1", "Alpha Extension", "activated enabled"⟩,
      ⟨"com.apple.system_extension.network_extension", true, true, "W5364U7YZB",
        "io.zeta.ext", "2.0/2", "Zeta Extension", "activated enabled"⟩] :
      List SystemExtensionItem).Pairwise
        (fun a b => a.category < b.category ∨ (a.category = b.category ∧ a.name ≤ b.name)) :=
  ⟨c5_sorted_lists.1 envLoginSort _ (by decide),
   c5_sorted_lists.2.1 envBGSort "user" _ ["could not read user disabled state: denied"]
     (by decide),
   c5_sorted_lists.2.2 envExtSort _ (by decide)⟩

/-! ## Claim C2 -/

theorem mem_scanDirEntries (env : BGEnv) (lu : List String)
    (dbs : String → Option (List (String × Bool))) (d : DirSpec)
    (es : List DirEntry) (it : BackgroundItem)
    (hmem : it ∈ scanDirEntries env lu dbs d es) :
    it.scope = d.scope ∧
    it.disabled = (dbs d.scope).bind (fun mp => List.lookup it.label mp) := by
  induction es with
  | nil => simp [scanDirEntries] at hmem
  | cons e es ih =>
    simp only [scanDirEntries] at hmem
    split at hmem
    · exact ih hmem
    · split at hmem
      · exact ih hmem
      · rename_i label hlab
        split at hmem
        · exact ih hmem
        · rcases List.mem_cons.mp hmem with rfl | h2
          · exact ⟨rfl, rfl⟩
          · exact ih h2

theorem mem_scanDirs (env : BGEnv) (lu : List String)
    (dbs : String → Option (List (String × Bool))) (ds : List DirSpec)
    (it : BackgroundItem) (h : it ∈ (scanDirs env lu dbs ds).1) :
    ∃ d, d ∈ ds ∧ it.scope = d.scope ∧
      it.disabled = (dbs d.scope).bind (fun mp => List.lookup it.label mp) := by
  induction ds with
  | nil => simp [scanDirs] at h
  | cons d ds ih =>
    simp only [scanDirs] at h
    split at h
    · obtain ⟨d', hd', hp⟩ := ih h
      exact ⟨d', List.mem_cons_of_mem _ hd', hp⟩
    · obtain ⟨d', hd', hp⟩ := ih h
      exact ⟨d', List.mem_cons_of_mem _ hd', hp⟩
    · rcases List.mem_append.mp h with hl | hr
      · exact ⟨d, List.mem_cons_self d ds, mem_scanDirEntries env lu dbs d _ it hl⟩
      · obtain ⟨d', hd', hp⟩ := ih hr
        exact ⟨d', List.mem_cons_of_mem _ hd', hp⟩

theorem mem_bgDirs (scope : String) (homeOpt : Option String) (d : DirSpec)
    (h : d ∈ bgDirs scope homeOpt) : d.scope = "user" ∨ d.scope = "system" := by
  unfold bgDirs at h
  rcases List.mem_append.mp h with h1 | h2
  · cases homeOpt with
    | none => simp at h1
    | some home =>
      simp only [List.mem_singleton] at h1
      rw [h1]
      exact Or.inl rfl
  · by_cases hs : scope = "system" ∨ scope = "all"
    · rw [if_pos hs] at h2
      rcases List.mem_cons.mp h2 with rfl | h3
      · exact Or.inr rfl
      · rcases List.mem_cons.mp h3 with rfl | h4
        · exact Or.inr rfl
        · simp at h4
    · rw [if_neg hs] at h2
      simp at h2

/-- Claim C2: in every aggregation result, an item carries the disabled
annotation exactly from the successfully fetched disabled map of its own
scope (looked up at its label); when that map is absent (fetch failed or
scope not requested) the tri-state stays unknown, never false. -/
theorem c2_disabled_scope_fidelity (env : BGEnv) (scope0 : String)
    (items : List BackgroundItem) (warns : List String) (it : BackgroundItem)
    (hok : listBackgroundItems env scope0 = .ok (items, warns))
    (hmem : it ∈ items) :
    (it.scope = "user" ∧
       it.disabled = (bgUserDisabled env (goToLower scope0)).1.bind
         (fun mp => List.lookup it.label mp)) ∨
    (it.scope = "system" ∧
       it.disabled = (bgSysDisabled env (goToLower scope0)).1.bind
         (fun mp => List.lookup it.label mp)) := by
  obtain ⟨homeOpt, rfl⟩ := listBackgroundItems_ok env scope0 items warns hok
  rw [mem_sortByLess] at hmem
  obtain ⟨d, hd, hscope, hdis⟩ := mem_scanDirs env _ _ _ it hmem
  rcases mem_bgDirs _ _ _ hd with h1 | h2
  · left
    refine ⟨hscope.trans h1, ?_⟩
    rw [hdis, h1]
    simp [bgDisabledByScope]
  · right
    refine ⟨hscope.trans h2, ?_⟩
    rw [hdis, h2]
    simp [bgDisabledByScope]

/-- Witness for C2: with the user disabled fetch succeeding (containing
label com.a) and the system fetch failing, the system-scope item com.a
stays unknown instead of borrowing the user entry. -/
theorem c2_disabled_scope_fidelity_witness :
    ((bgSysComA.scope = "user" ∧
        bgSysComA.disabled = (bgUserDisabled envBGScopes (goToLower "all")).1.bind
          (fun mp => List.lookup bgSysComA.label mp)) ∨
     (bgSysComA.scope = "system" ∧
        bgSysComA.disabled = (bgSysDisabled envBGScopes (goToLower "all")).1.bind
          (fun mp => List.lookup bgSysComA.label mp))) ∧
    bgSysComA.disabled = Option.none :=
  ⟨c2_disabled_scope_fidelity envBGScopes "all" [bgSysComA]
      ["could not read system disabled state (try sudo): Could not find service"]
      bgSysComA (by decide) (by decide),
   rfl⟩

/-! ## Row-map lemmas -/

theorem filterIndicesFrom_lb {α : Type} (p : α → Bool) (i : Nat) (xs : List α) :
    ∀ j ∈ filterIndicesFrom p i xs, i ≤ j := by
  induction xs generalizing i with
  | nil => simp [filterIndicesFrom]
  | cons x xs ih =>
    intro j hj
    simp only [filterIndicesFrom] at hj
    split at hj
    · rcases List.mem_cons.mp hj with rfl | h2
      · exact le_refl j
      · exact le_trans (Nat.le_succ i) (ih (i + 1) j h2)
    · exact le_trans (Nat.le_succ i) (ih (i + 1) j hj)

theorem pairwise_filterIndicesFrom {α : Type} (p : α → Bool) (i : Nat)
    (xs : List α) : (filterIndicesFrom p i xs).Pairwise (· < ·) := by
  induction xs generalizing i with
  | nil => simp [filterIndicesFrom]
  | cons x xs ih =>
    simp only [filterIndicesFrom]
    split
    · refine List.pairwise_cons.mpr ⟨?_, ih (i + 1)⟩
      intro j hj
      exact lt_of_lt_of_le (Nat.lt_succ_self i) (filterIndicesFrom_lb p (i + 1) xs j hj)
    · exact ih (i + 1)

theorem mem_filterIndicesFrom {α : Type} (p : α → Bool) (xs : List α) :
    ∀ (i j : Nat), j ∈ filterIndicesFrom p i xs ↔
      (i ≤ j ∧ ∃ x, xs.get? (j - i) = some x ∧ p x = true) := by
  induction xs with
  | nil =>
    intro i j
    simp [filterIndicesFrom]
  | cons x xs ih =>
    intro i j
    simp only [filterIndicesFrom]
    by_cases hp : p x
    · rw [if_pos hp]
      constructor
      · intro hj
        rcases List.mem_cons.mp hj with rfl | h2
        · exact ⟨le_refl j, ⟨x, by simp, hp⟩⟩
        · obtain ⟨hle, x', hget, hx'⟩ := (ih (i + 1) j).mp h2
          refine ⟨le_trans (Nat.le_succ i) hle, x', ?_, hx'⟩
          have hji : j - i = (j - (i + 1)) + 1 := by omega
          rw [hji, List.get?_cons_succ]
          exact hget
      · rintro ⟨hle, x', hget, hx'⟩
        rcases Nat.eq_or_lt_of_le hle with rfl | hlt
        · exact List.mem_cons_self _ _
        · refine List.mem_cons_of_mem _ ((ih (i + 1) j).mpr ⟨hlt, x', ?_, hx'⟩)
          have hji : j - i = (j - (i + 1)) + 1 := by omega
          rw [hji, List.get?_cons_succ] at hget
          exact hget
    · rw [if_neg hp]
      constructor
      · intro hj
        obtain ⟨hle, x', hget, hx'⟩ := (ih (i + 1) j).mp hj
        refine ⟨le_trans (Nat.le_succ i) hle, x', ?_, hx'⟩
        have hji : j - i = (j - (i + 1)) + 1 := by omega
        rw [hji, List.get?_cons_succ]
        exact hget
      · rintro ⟨hle, x', hget, hx'⟩
        rcases Nat.eq_or_lt_of_le hle with rfl | hlt
        · simp only [Nat.sub_self, List.get?_cons_zero, Option.some.injEq] at hget
          rw [hget] at hp
          exact absurd hx' (by simp [hp])
        · refine (ih (i + 1) j).mpr ⟨hlt, x', ?_, hx'⟩
          have hji : j - i = (j - (i + 1)) + 1 := by omega
          rw [hji, List.get?_cons_succ] at hget
          exact hget

theorem length_filterIndicesFrom {α : Type} (p : α → Bool) (xs : List α) :
    ∀ i, (filterIndicesFrom p i xs).length = (xs.filter p).length := by
  induction xs with
  | nil => intro i; rfl
  | cons x xs ih =>
    intro i
    simp only [filterIndicesFrom, List.filter_cons]
    by_cases hp : p x
    · simp [hp, ih]
    · simp [hp, ih]

theorem get_filterIndicesFrom {α : Type} (p : α → Bool) (xs : List α) :
    ∀ (i k j : Nat), (filterIndicesFrom p i xs).get? k = some j →
      ∃ x, xs.get? (j - i) = some x ∧ (xs.filter p).get? k = some x := by
  induction xs with
  | nil =>
    intro i k j h
    simp [filterIndicesFrom] at h
  | cons x xs ih =>
    intro i k j h
    simp only [filterIndicesFrom] at h
    by_cases hp : p x
    · rw [if_pos hp] at h
      cases k with
      | zero =>
        simp only [List.get?_cons_zero, Option.some.injEq] at h
        subst h
        exact ⟨x, by simp, by simp [List.filter_cons, hp]⟩
      | succ k =>
        rw [List.get?_cons_succ] at h
        obtain ⟨x', hg, hf⟩ := ih (i + 1) k j h
        have hlb : i + 1 ≤ j :=
          filterIndicesFrom_lb p (i + 1) xs j (List.get?_mem h)
        refine ⟨x', ?_, ?_⟩
        · have hji : j - i = (j - (i + 1)) + 1 := by omega
          rw [hji, List.get?_cons_succ]
          exact hg
        · rw [List.filter_cons, if_pos hp, List.get?_cons_succ]
          exact hf
    · rw [if_neg hp] at h
      obtain ⟨x', hg, hf⟩ := ih (i + 1) k j h
      have hlb : i + 1 ≤ j :=
        filterIndicesFrom_lb p (i + 1) xs j (List.get?_mem h)
      refine ⟨x', ?_, ?_⟩
      · have hji : j - i = (j - (i + 1)) + 1 := by omega
        rw [hji, List.get?_cons_succ]
        exact hg
      · rw [List.filter_cons, if_neg hp]
        exact hf

theorem filterIndicesFrom_all_true {α : Type} (p : α → Bool) (xs : List α)
    (hall : ∀ x, p x = true) :
    ∀ i, filterIndicesFrom p i xs = List.range' i xs.length := by
  induction xs with
  | nil => intro i; rfl
  | cons x xs ih =>
    intro i
    simp only [filterIndicesFrom, hall x, if_true, List.length_cons]
    rw [List.range'_succ, ih]

/-- The resolution chain shared by the two selection helpers. -/
theorem filterIndices_resolve {α : Type} (p : α → Bool) (items : List α) (k : Nat)
    (hk : k < (filterIndices p items).length) :
    ∃ j x, (filterIndices p items).get? k = some j ∧
      items.get? j = some x ∧ (items.filter p).get? k = some x := by
  obtain ⟨j, hj⟩ : ∃ j, (filterIndices p items).get? k = some j :=
    ⟨_, List.get?_eq_get hk⟩
  obtain ⟨x, hg, hf⟩ := get_filterIndicesFrom p items 0 k j hj
  rw [Nat.sub_zero] at hg
  exact ⟨j, x, hj, hg, hf⟩

theorem matchesLoginFilter_empty (it : LoginItem) :
    matchesLoginFilter it "" = true := rfl

theorem matchesBackgroundFilter_empty (it : BackgroundItem) :
    matchesBackgroundFilter it "" = true := rfl

theorem matchesExtensionsFilter_empty (it : SystemExtensionItem) :
    matchesExtensionsFilter it "" = true := rfl

/-! ## Claim C3 -/

/-- Claim C3: the row-to-source-index maps built by rebuildTable are
strictly increasing, contain exactly the indices of the filter-matching
items of the snapshot in order, selecting the k-th visible row resolves
through the map to the exact original snapshot item, and an empty filter
yields one row per item. -/
theorem c3_filter_row_mapping (m : UIModel) (k : Nat) :
    ((UIModel.rebuildTable { m with tab := 0 } 0).loginRows.Pairwise (· < ·) ∧
     (UIModel.rebuildTable { m with tab := 1 } 0).bgRows.Pairwise (· < ·) ∧
     (UIModel.rebuildTable { m with tab := 2 } 0).extRows.Pairwise (· < ·)) ∧
    (∀ j, j ∈ (UIModel.rebuildTable { m with tab := 0 } 0).loginRows ↔
       ∃ x, m.loginItems.get? j = some x ∧ matchesLoginFilter x m.filter = true) ∧
    (∀ j, j ∈ (UIModel.rebuildTable { m with tab := 1 } 0).bgRows ↔
       ∃ x, m.bgItems.get? j = some x ∧ matchesBackgroundFilter x m.filter = true) ∧
    (∀ j, j ∈ (UIModel.rebuildTable { m with tab := 2 } 0).extRows ↔
       ∃ x, m.extItems.get? j = some x ∧ matchesExtensionsFilter x m.filter = true) ∧
    (k < (UIModel.rebuildTable { m with tab := 0 } 0).loginRows.length →
       ∃ j x, (UIModel.rebuildTable { m with tab := 0 } 0).loginRows.get? k = some j ∧
         m.loginItems.get? j = some x ∧
         (m.loginItems.filter (fun it => matchesLoginFilter it m.filter)).get? k =
           some x ∧
         UIModel.selectedLoginItem
           { UIModel.rebuildTable { m with tab := 0 } 0 with cursor := (k : Int) } =
           (x, true)) ∧
    (k < (UIModel.rebuildTable { m with tab := 1 } 0).bgRows.length →
       ∃ j x, (UIModel.rebuildTable { m with tab := 1 } 0).bgRows.get? k = some j ∧
         m.bgItems.get? j = some x ∧
         (m.bgItems.filter (fun it => matchesBackgroundFilter it m.filter)).get? k =
           some x ∧
         UIModel.selectedBackgroundItem
           { UIModel.rebuildTable { m with tab := 1 } 0 with cursor := (k : Int) } =
           (x, true)) ∧
    (m.filter = "" →
       (UIModel.rebuildTable { m with tab := 0 } 0).loginRows =
         List.range m.loginItems.length ∧
       (UIModel.rebuildTable { m with tab := 1 } 0).bgRows =
         List.range m.bgItems.length ∧
       (UIModel.rebuildTable { m with tab := 2 } 0).extRows =
         List.range m.extItems.length) := by
  have h0 : (UIModel.rebuildTable { m with tab := 0 } 0).loginRows =
      filterIndices (fun it => matchesLoginFilter it m.filter) m.loginItems := by
    simp [UIModel.rebuildTable]
  have h1 : (UIModel.rebuildTable { m with tab := 1 } 0).bgRows =
      filterIndices (fun it => matchesBackgroundFilter it m.filter) m.bgItems := by
    simp [UIModel.rebuildTable]
  have h2 : (UIModel.rebuildTable { m with tab := 2 } 0).extRows =
      filterIndices (fun it => matchesExtensionsFilter it m.filter) m.extItems := by
    simp [UIModel.rebuildTable]
  have hitems0 : (UIModel.rebuildTable { m with tab := 0 } 0).loginItems =
      m.loginItems := by
    simp [UIModel.rebuildTable]
  have hitems1 : (UIModel.rebuildTable { m with tab := 1 } 0).bgItems =
      m.bgItems := by
    simp [UIModel.rebuildTable]
  refine ⟨⟨?_, ?_, ?_⟩, ?_, ?_, ?_, ?_, ?_, ?_⟩
  · rw [h0]
    exact pairwise_filterIndicesFrom _ 0 _
  · rw [h1]
    exact pairwise_filterIndicesFrom _ 0 _
  · rw [h2]
    exact pairwise_filterIndicesFrom _ 0 _
  · intro j
    rw [h0]
    rw [show filterIndices (fun it => matchesLoginFilter it m.filter) m.loginItems =
      filterIndicesFrom (fun it => matchesLoginFilter it m.filter) 0 m.loginItems
      from rfl]
    rw [mem_filterIndicesFrom]
    simp [Nat.zero_le]
  · intro j
    rw [h1]
    rw [show filterIndices (fun it => matchesBackgroundFilter it m.filter) m.bgItems =
      filterIndicesFrom (fun it => matchesBackgroundFilter it m.filter) 0 m.bgItems
      from rfl]
    rw [mem_filterIndicesFrom]
    simp [Nat.zero_le]
  · intro j
    rw [h2]
    rw [show filterIndices (fun it => matchesExtensionsFilter it m.filter) m.extItems =
      filterIndicesFrom (fun it => matchesExtensionsFilter it m.filter) 0 m.extItems
      from rfl]
    rw [mem_filterIndicesFrom]
    simp [Nat.zero_le]
  · intro hk
    rw [h0] at hk
    obtain ⟨j, x, hj, hg, hf⟩ :=
      filterIndices_resolve (fun it => matchesLoginFilter it m.filter) m.loginItems k hk
    refine ⟨j, x, by rw [h0]; exact hj, hg, hf, ?_⟩
    simp only [UIModel.selectedLoginItem]
    rw [if_neg (by omega)]
    simp only [Int.toNat_natCast]
    rw [show ({ UIModel.rebuildTable { m with tab := 0 } 0 with
        cursor := (k : Int) } : UIModel).loginRows =
      (UIModel.rebuildTable { m with tab := 0 } 0).loginRows from rfl]
    rw [h0, hj]
    rw [show ({ UIModel.rebuildTable { m with tab := 0 } 0 with
        cursor := (k : Int) } : UIModel).loginItems = m.loginItems from hitems0]
    rw [List.get?_eq_getElem?] at hg
    simp [hg]
  · intro hk
    rw [h1] at hk
    obtain ⟨j, x, hj, hg, hf⟩ :=
      filterIndices_resolve (fun it => matchesBackgroundFilter it m.filter) m.bgItems k hk
    refine ⟨j, x, by rw [h1]; exact hj, hg, hf, ?_⟩
    simp only [UIModel.selectedBackgroundItem]
    rw [if_neg (by omega)]
    simp only [Int.toNat_natCast]
    rw [show ({ UIModel.rebuildTable { m with tab := 1 } 0 with
        cursor := (k : Int) } : UIModel).bgRows =
      (UIModel.rebuildTable { m with tab := 1 } 0).bgRows from rfl]
    rw [h1, hj]
    rw [show ({ UIModel.rebuildTable { m with tab := 1 } 0 with
        cursor := (k : Int) } : UIModel).bgItems = m.bgItems from hitems1]
    rw [List.get?_eq_getElem?] at hg
    simp [hg]
  · intro hempty
    refine ⟨?_, ?_, ?_⟩
    · rw [h0, hempty]
      rw [show filterIndices (fun it => matchesLoginFilter it "") m.loginItems =
        filterIndicesFrom (fun it => matchesLoginFilter it "") 0 m.loginItems
        from rfl]
      rw [filterIndicesFrom_all_true _ _ matchesLoginFilter_empty 0,
        List.range_eq_range']
    · rw [h1, hempty]
      rw [show filterIndices (fun it => matchesBackgroundFilter it "") m.bgItems =
        filterIndicesFrom (fun it => matchesBackgroundFilter it "") 0 m.bgItems
        from rfl]
      rw [filterIndicesFrom_all_true _ _ matchesBackgroundFilter_empty 0,
        List.range_eq_range']
    · rw [h2, hempty]
      rw [show filterIndices (fun it => matchesExtensionsFilter it "") m.extItems =
        filterIndicesFrom (fun it => matchesExtensionsFilter it "") 0 m.extItems
        from rfl]
      rw [filterIndicesFrom_all_true _ _ matchesExtensionsFilter_empty 0,
        List.range_eq_range']

/-- Witness for C3 at the spec example: filter ray over the two-item
snapshots selects exactly the Raycast records, and the empty filter keeps a
row per item. -/
theorem c3_filter_row_mapping_witness :
    (∃ j x,
        (UIModel.rebuildTable { mFilterRay with tab := 0 } 0).loginRows.get? 0 =
          some j ∧
        mFilterRay.loginItems.get? j = some x ∧
        (mFilterRay.loginItems.filter
            (fun it => matchesLoginFilter it mFilterRay.filter)).get? 0 = some x ∧
        UIModel.selectedLoginItem
          { UIModel.rebuildTable { mFilterRay with tab := 0 } 0 with
              cursor := ((0 : Nat) : Int) } = (x, true)) ∧
    (∃ j x,
        (UIModel.rebuildTable { mFilterRay with tab := 1 } 0).bgRows.get? 0 =
          some j ∧
        mFilterRay.bgItems.get? j = some x ∧
        (mFilterRay.bgItems.filter
            (fun it => matchesBackgroundFilter it mFilterRay.filter)).get? 0 =
          some x ∧
        UIModel.selectedBackgroundItem
          { UIModel.rebuildTable { mFilterRay with tab := 1 } 0 with
              cursor := ((0 : Nat) : Int) } = (x, true)) ∧
    ((UIModel.rebuildTable { mTabSwitch with tab := 0 } 0).loginRows =
        List.range mTabSwitch.loginItems.length ∧
     (UIModel.rebuildTable { mTabSwitch with tab := 1 } 0).bgRows =
        List.range mTabSwitch.bgItems.length ∧
     (UIModel.rebuildTable { mTabSwitch with tab := 2 } 0).extRows =
        List.range mTabSwitch.extItems.length) ∧
    UIModel.selectedLoginItem
      { UIModel.rebuildTable { mFilterRay with tab := 0 } 0 with
          cursor := ((0 : Nat) : Int) } = (loginRaycast, true) :=
  ⟨(c3_filter_row_mapping mFilterRay 0).2.2.2.2.1 (by decide),
   (c3_filter_row_mapping mFilterRay 0).2.2.2.2.2.1 (by decide),
   (c3_filter_row_mapping mTabSwitch 0).2.2.2.2.2.2 rfl,
   by decide⟩

/-! ## Claim C10 -/

/-- Claim C10: the selection helpers are total — a cursor outside the row
map, or a mapped index outside the item snapshot, yields the zero item with
ok false, and then the delete and enable and disable key handlers perform no
mutator command and leave the state unchanged. -/
theorem c10_selection_safety (m : UIModel) :
    ((m.cursor < 0 ∨ m.loginRows.length ≤ m.cursor.toNat ∨
        (∀ j, m.loginRows.get? m.cursor.toNat = some j →
          m.loginItems.length ≤ j)) →
      UIModel.selectedLoginItem m = (zeroLoginItem, false) ∧
      (m.confirmMode = false → m.filterActive = false → m.tab = 0 →
        UIModel.update m (.key ⟨"x", true⟩) = (m, Cmd.none))) ∧
    ((m.cursor < 0 ∨ m.bgRows.length ≤ m.cursor.toNat ∨
        (∀ j, m.bgRows.get? m.cursor.toNat = some j →
          m.bgItems.length ≤ j)) →
      UIModel.selectedBackgroundItem m = (zeroBackgroundItem, false) ∧
      (m.confirmMode = false → m.filterActive = false → m.tab = 1 →
        UIModel.update m (.key ⟨"x", true⟩) = (m, Cmd.none) ∧
        UIModel.update m (.key ⟨"e", true⟩) = (m, Cmd.none) ∧
        UIModel.update m (.key ⟨"d", true⟩) = (m, Cmd.none))) := by
  constructor
  · intro hbad
    have hsel : UIModel.selectedLoginItem m = (zeroLoginItem, false) := by
      unfold UIModel.selectedLoginItem
      by_cases hneg : m.cursor < 0
      · rw [if_pos hneg]
      · rw [if_neg hneg]
        rcases hbad with hneg2 | hlen | hmap
        · exact absurd hneg2 hneg
        · rw [List.get?_eq_none.mpr hlen]
        · cases hg : m.loginRows.get? m.cursor.toNat with
          | none => rfl
          | some j =>
            have hnone := List.get?_eq_none.mpr (hmap j hg)
            rw [List.get?_eq_getElem?] at hnone
            simp [hnone]
    refine ⟨hsel, ?_⟩
    intro hc hf ht
    simp [UIModel.update, updateKeyNormal, hc, hf, ht, hsel]
  · intro hbad
    have hsel : UIModel.selectedBackgroundItem m = (zeroBackgroundItem, false) := by
      unfold UIModel.selectedBackgroundItem
      by_cases hneg : m.cursor < 0
      · rw [if_pos hneg]
      · rw [if_neg hneg]
        rcases hbad with hneg2 | hlen | hmap
        · exact absurd hneg2 hneg
        · rw [List.get?_eq_none.mpr hlen]
        · cases hg : m.bgRows.get? m.cursor.toNat with
          | none => rfl
          | some j =>
            have hnone := List.get?_eq_none.mpr (hmap j hg)
            rw [List.get?_eq_getElem?] at hnone
            simp [hnone]
    refine ⟨hsel, ?_⟩
    intro hc hf ht
    refine ⟨?_, ?_, ?_⟩ <;>
      simp [UIModel.update, updateKeyNormal, hc, hf, ht, hsel]

/-- Witness for C10: an empty login row map on the login tab, and a stale
background row map pointing past an emptied snapshot, both yield no
selection and no command. -/
theorem c10_selection_safety_witness :
    (UIModel.selectedLoginItem mNoSel = (zeroLoginItem, false) ∧
     UIModel.update mNoSel (.key ⟨"x", true⟩) = (mNoSel, Cmd.none)) ∧
    (UIModel.selectedBackgroundItem mNoSelBG = (zeroBackgroundItem, false) ∧
     UIModel.update mNoSelBG (.key ⟨"x", true⟩) = (mNoSelBG, Cmd.none) ∧
     UIModel.update mNoSelBG (.key ⟨"e", true⟩) = (mNoSelBG, Cmd.none) ∧
     UIModel.update mNoSelBG (.key ⟨"d", true⟩) = (mNoSelBG, Cmd.none)) := by
  constructor
  · have h := (c10_selection_safety mNoSel).1 (Or.inr (Or.inl (by decide)))
    exact ⟨h.1, h.2 rfl rfl rfl⟩
  · have h := (c10_selection_safety mNoSelBG).2
      (Or.inr (Or.inr (fun j _ => Nat.zero_le j)))
    exact ⟨h.1, h.2 rfl rfl rfl⟩

/-! ## Claim C4 -/

/-- Counterexample for C4 as stated: in confirm-pending state the interrupt
key ctrl+c is neither the confirm key nor the cancel key, yet it is not
ignored — it quits the browser. -/
theorem c4_confirm_modal_counterexample :
    UIModel.update mConfirm (.key ⟨"ctrl+c", false⟩) = (mConfirm, Cmd.quit) ∧
    Cmd.quit ≠ Cmd.none :=
  ⟨by decide, by decide⟩

/-- Claim C4 (amended): in confirm-pending with a captured item, the confirm
key performs the captured delete exactly once and returns to normal, and a
successful completion on the background tab triggers re-aggregation; cancel
or escape discards the pending item with no command; every other key except
the interrupt key ctrl+c (which quits) is ignored with the state unchanged
and no command. -/
theorem c4_confirm_state_machine (m : UIModel) (item : BackgroundItem)
    (hc : m.confirmMode = true) (hp : m.pendingBGDel = some item) :
    (UIModel.update m (.key ⟨"y", true⟩) =
       ({ m with pendingBGDel := Option.none, confirmMode := false,
                 confirmText := "", status := "Deleting background item..." },
        Cmd.deleteBackground item)) ∧
    (UIModel.update m (.key ⟨"n", true⟩) =
       ({ m with pendingBGDel := Option.none, confirmMode := false,
                 confirmText := "", status := "Delete cancelled" }, Cmd.none)) ∧
    (UIModel.update m (.key ⟨"esc", false⟩) =
       ({ m with pendingBGDel := Option.none, confirmMode := false,
                 confirmText := "", status := "Delete cancelled" }, Cmd.none)) ∧
    (∀ k : KeyMsg, k.str ≠ "ctrl+c" → k.str ≠ "y" → k.str ≠ "n" → k.str ≠ "esc" →
       UIModel.update m (.key k) = (m, Cmd.none)) ∧
    (UIModel.update m (.key ⟨"ctrl+c", false⟩) = (m, Cmd.quit)) ∧
    (∀ s, m.tab = 1 →
       UIModel.update (UIModel.update m (.key ⟨"y", true⟩)).1
           (.actionDone s Option.none) =
         ({ (UIModel.update m (.key ⟨"y", true⟩)).1 with
              err := Option.none
              status := s },
          Cmd.refreshBackground)) ∧
    (∀ item2, (UIModel.update (UIModel.update m (.key ⟨"y", true⟩)).1
        (.key ⟨"y", true⟩)).2 ≠ Cmd.deleteBackground item2) := by
  have hy : UIModel.update m (.key ⟨"y", true⟩) =
      ({ m with pendingBGDel := Option.none, confirmMode := false,
                confirmText := "", status := "Deleting background item..." },
       Cmd.deleteBackground item) := by
    simp [UIModel.update, updateKeyConfirm, hc, hp]
  refine ⟨hy, ?_, ?_, ?_, ?_, ?_, ?_⟩
  · simp [UIModel.update, updateKeyConfirm, hc]
  · simp [UIModel.update, updateKeyConfirm, hc]
  · intro k h1 h2 h3 h4
    simp [UIModel.update, updateKeyConfirm, hc, h1, h2, h3, h4]
  · simp [UIModel.update, updateKeyConfirm, hc]
  · intro s ht
    rw [hy]
    simp [UIModel.update, ht]
  · intro item2
    rw [hy]
    by_cases hfa : m.filterActive
    · simp [UIModel.update, updateKeyFilter, hfa]
    · simp [UIModel.update, updateKeyFilter, updateKeyNormal, hfa]

/-- Witness for C4 at a concrete confirm-pending model: confirm dispatches
the captured delete once, cancel and an unrelated key are side-effect free,
and the delete completion refreshes the background snapshot. -/
theorem c4_confirm_state_machine_witness :
    (UIModel.update mConfirm (.key ⟨"y", true⟩) =
       ({ mConfirm with
            pendingBGDel := Option.none
            confirmMode := false
            confirmText := ""
            status := "Deleting background item..." },
        Cmd.deleteBackground bgFooAgent)) ∧
    (UIModel.update mConfirm (.key ⟨"n", true⟩) =
       ({ mConfirm with
            pendingBGDel := Option.none
            confirmMode := false
            confirmText := ""
            status := "Delete cancelled" }, Cmd.none)) ∧
    (UIModel.update mConfirm (.key ⟨"z", true⟩) = (mConfirm, Cmd.none)) ∧
    (UIModel.update (UIModel.update mConfirm (.key ⟨"y", true⟩)).1
        (.actionDone "Deleted background item com.foo.agent" Option.none) =
      ({ (UIModel.update mConfirm (.key ⟨"y", true⟩)).1 with
           err := Option.none
           status := "Deleted background item com.foo.agent" },
       Cmd.refreshBackground)) ∧
    (∀ item2, (UIModel.update (UIModel.update mConfirm (.key ⟨"y", true⟩)).1
        (.key ⟨"y", true⟩)).2 ≠ Cmd.deleteBackground item2) := by
  have h := c4_confirm_state_machine mConfirm bgFooAgent rfl rfl
  exact ⟨h.1, h.2.1,
    h.2.2.2.1 ⟨"z", true⟩ (by decide) (by decide) (by decide) (by decide),
    h.2.2.2.2.2.1 "Deleted background item com.foo.agent" rfl,
    h.2.2.2.2.2.2⟩

theorem rebuildTable_filter (m : UIModel) (c : Int) :
    (UIModel.rebuildTable m c).filter = m.filter := by
  unfold UIModel.rebuildTable
  split
  · rfl
  · split
    · rfl
    · rfl

/-! ## Claim C6 -/

/-- Counterexample for C6 as stated: in filter-editing state the
clear-filter key c is appended to the filter text instead of clearing it. -/
theorem c6_clear_filter_counterexample :
    (UIModel.update mEditing (.key ⟨"c", true⟩)).1.filter = "ac" ∧
    ("ac" : String) ≠ "" :=
  ⟨by decide, by decide⟩

/-- Claim C6 (amended): only in normal mode (neither confirm-pending nor
filter-editing) does the c key clear the filter — rebuilding the rows when
the filter was non-empty and doing nothing when it was already empty; while
filter-editing, c is appended to the filter text like any rune. -/
theorem c6_clear_filter (m : UIModel) (hc : m.confirmMode = false)
    (hf : m.filterActive = false) :
    (m.filter ≠ "" →
       UIModel.update m (.key ⟨"c", true⟩) =
         ({ UIModel.rebuildTable { m with filter := "" } 0 with
              status := "Filter cleared" }, Cmd.none)) ∧
    (m.filter = "" → UIModel.update m (.key ⟨"c", true⟩) = (m, Cmd.none)) ∧
    (∀ m2 : UIModel, m2.confirmMode = false → m2.filterActive = true →
       (UIModel.update m2 (.key ⟨"c", true⟩)).1.filter = m2.filter ++ "c") := by
  refine ⟨?_, ?_, ?_⟩
  · intro hne
    simp [UIModel.update, updateKeyNormal, hc, hf, hne]
  · intro he
    simp [UIModel.update, updateKeyNormal, hc, hf, he]
  · intro m2 h2c h2f
    simp [UIModel.update, updateKeyFilter, h2c, h2f, rebuildTable_filter]

/-- Witness for C6: clearing from normal mode with a non-empty filter, the
no-op with an empty filter, and the append behavior while editing. -/
theorem c6_clear_filter_witness :
    (UIModel.update mFiltered (.key ⟨"c", true⟩) =
       ({ UIModel.rebuildTable { mFiltered with filter := "" } 0 with
            status := "Filter cleared" }, Cmd.none)) ∧
    (UIModel.update baseModel (.key ⟨"c", true⟩) = (baseModel, Cmd.none)) ∧
    ((UIModel.update mEditing (.key ⟨"c", true⟩)).1.filter =
       mEditing.filter ++ "c") := by
  have h1 := c6_clear_filter mFiltered rfl rfl
  have h2 := c6_clear_filter baseModel rfl rfl
  exact ⟨h1.1 (by decide), h2.2.1 rfl, h1.2.2 mEditing rfl rfl⟩

/-! ## Claim C7 -/

/-- Counterexample for C7 as stated: when the mutator completion carries an
error, the browser records the failure and does not re-aggregate. -/
theorem c7_toggle_refresh_counterexample :
    (UIModel.update mToggle (.actionDone "" (some "exit status 1"))).2 =
      Cmd.none ∧
    Cmd.none ≠ Cmd.refreshBackground :=
  ⟨by decide, by decide⟩

/-- Claim C7 (amended): on the background tab outside confirm and filter
modes, the enable and disable keys dispatch the toggle mutator for the
selected item; a successful completion then triggers background
re-aggregation, while a failed completion records the error and triggers no
re-aggregation. -/
theorem c7_toggle_then_refresh (m : UIModel) (item : BackgroundItem)
    (hc : m.confirmMode = false) (hf : m.filterActive = false) (ht : m.tab = 1)
    (hsel : UIModel.selectedBackgroundItem m = (item, true)) :
    (UIModel.update m (.key ⟨"e", true⟩) =
       ({ m with status := "Applying background item change..." },
        Cmd.toggleBackground item.label item.scope true)) ∧
    (UIModel.update m (.key ⟨"d", true⟩) =
       ({ m with status := "Applying background item change..." },
        Cmd.toggleBackground item.label item.scope false)) ∧
    (∀ s, UIModel.update m (.actionDone s Option.none) =
       ({ m with err := Option.none, status := s }, Cmd.refreshBackground)) ∧
    (∀ s e, UIModel.update m (.actionDone s (some e)) =
       ({ m with err := some e, status := "Action failed" }, Cmd.none)) := by
  refine ⟨?_, ?_, ?_, ?_⟩
  · simp [UIModel.update, updateKeyNormal, hc, hf, ht, hsel]
  · simp [UIModel.update, updateKeyNormal, hc, hf, ht, hsel]
  · intro s
    simp [UIModel.update, ht]
  · intro s e
    simp [UIModel.update]

/-- Witness for C7 at a concrete background-tab model with a valid
selection. -/
theorem c7_toggle_then_refresh_witness :
    (UIModel.update mToggle (.key ⟨"e", true⟩) =
       ({ mToggle with status := "Applying background item change..." },
        Cmd.toggleBackground "com.foo.agent" "user" true)) ∧
    (UIModel.update mToggle (.actionDone "enabled com.foo.agent" Option.none) =
       ({ mToggle with err := Option.none, status := "enabled com.foo.agent" },
        Cmd.refreshBackground)) ∧
    (UIModel.update mToggle (.actionDone "" (some "exit status 1")) =
       ({ mToggle with err := some "exit status 1", status := "Action failed" },
        Cmd.none)) := by
  have h := c7_toggle_then_refresh mToggle bgFooAgent rfl rfl rfl (by decide)
  exact ⟨h.1, h.2.2.1 "enabled com.foo.agent", h.2.2.2 "" "exit status 1"⟩

/-! ## Claim C8 -/

/-- Counterexample for C8 as stated: a tab switch resets the cursor to the
first row instead of preserving it — from cursor 1 with two rows available
on the new tab, the cursor lands on 0. -/
theorem c8_tab_switch_counterexample :
    mTabSwitch.cursor = 1 ∧
    (UIModel.update mTabSwitch (.key ⟨"tab", false⟩)).1.rows.length = 2 ∧
    (UIModel.update mTabSwitch (.key ⟨"tab", false⟩)).1.cursor = 0 ∧
    ((0 : Int) ≠ 1) :=
  ⟨rfl, by decide, by decide, by decide⟩

/-- Claim C8 (amended): forward and backward tab switches wrap over the
three tabs and rebuild the visible rows and the row map of the new tab from
that tab's current snapshot and the live filter text, resetting the cursor
to the first row (not preserving the previous position). -/
theorem c8_tab_switch (m : UIModel) (hc : m.confirmMode = false)
    (hf : m.filterActive = false) :
    (∀ s, s = "tab" ∨ s = "right" ∨ s = "l" →
       UIModel.update m (.key ⟨s, false⟩) =
         (UIModel.rebuildTable { m with tab := (m.tab + 1) % 3 } 0, Cmd.none)) ∧
    (∀ s, s = "shift+tab" ∨ s = "left" ∨ s = "h" →
       UIModel.update m (.key ⟨s, false⟩) =
         (UIModel.rebuildTable { m with tab := (m.tab + 2) % 3 } 0, Cmd.none)) ∧
    (∀ m2 : UIModel, (UIModel.rebuildTable m2 0).cursor = 0) ∧
    (∀ m2 : UIModel, m2.tab = 0 →
       (UIModel.rebuildTable m2 0).rows =
         (m2.loginItems.filter (fun it => matchesLoginFilter it m2.filter)).map
           renderLoginRow ∧
       (UIModel.rebuildTable m2 0).loginRows =
         filterIndices (fun it => matchesLoginFilter it m2.filter) m2.loginItems) ∧
    (∀ m2 : UIModel, m2.tab = 1 →
       (UIModel.rebuildTable m2 0).rows =
         (m2.bgItems.filter (fun it => matchesBackgroundFilter it m2.filter)).map
           renderBackgroundRow ∧
       (UIModel.rebuildTable m2 0).bgRows =
         filterIndices (fun it => matchesBackgroundFilter it m2.filter) m2.bgItems) ∧
    (∀ m2 : UIModel, m2.tab = 2 →
       (UIModel.rebuildTable m2 0).rows =
         (m2.extItems.filter (fun it => matchesExtensionsFilter it m2.filter)).map
           renderExtensionRow ∧
       (UIModel.rebuildTable m2 0).extRows =
         filterIndices (fun it => matchesExtensionsFilter it m2.filter) m2.extItems) := by
  have hclamp : ∀ rows : List (List String), clampCursor rows 0 = 0 := by
    intro rows
    unfold clampCursor
    split
    · rfl
    · rename_i hlen
      rw [if_neg (by omega)]
      rw [if_neg (by omega)]
  refine ⟨?_, ?_, ?_, ?_, ?_, ?_⟩
  · intro s hs
    rcases hs with rfl | rfl | rfl <;>
      simp [UIModel.update, updateKeyNormal, hc, hf]
  · intro s hs
    rcases hs with rfl | rfl | rfl <;>
      simp [UIModel.update, updateKeyNormal, hc, hf]
  · intro m2
    unfold UIModel.rebuildTable
    split
    · simp [hclamp]
    · split
      · simp [hclamp]
      · simp [hclamp]
  · intro m2 h2
    unfold UIModel.rebuildTable
    rw [if_pos h2]
    constructor <;> rfl
  · intro m2 h2
    unfold UIModel.rebuildTable
    rw [if_neg (by rw [h2]; decide), if_pos h2]
    constructor <;> rfl
  · intro m2 h2
    unfold UIModel.rebuildTable
    rw [if_neg (by rw [h2]; decide), if_neg (by rw [h2]; decide)]
    constructor <;> rfl

/-- Witness for C8 at concrete models: a forward and a backward switch, the
cursor reset, and the row rebuild of the background tab. -/
theorem c8_tab_switch_witness :
    (UIModel.update mTabSwitch (.key ⟨"tab", false⟩) =
       (UIModel.rebuildTable { mTabSwitch with tab := (mTabSwitch.tab + 1) % 3 } 0,
        Cmd.none)) ∧
    (UIModel.update mTabSwitch (.key ⟨"left", false⟩) =
       (UIModel.rebuildTable { mTabSwitch with tab := (mTabSwitch.tab + 2) % 3 } 0,
        Cmd.none)) ∧
    (UIModel.rebuildTable mToggle 0).cursor = 0 ∧
    ((UIModel.rebuildTable mToggle 0).rows =
       (mToggle.bgItems.filter
           (fun it => matchesBackgroundFilter it mToggle.filter)).map
         renderBackgroundRow) := by
  have h := c8_tab_switch mTabSwitch rfl rfl
  exact ⟨h.1 "tab" (Or.inl rfl), h.2.1 "left" (Or.inr (Or.inl rfl)),
    h.2.2.1 mToggle, (h.2.2.2.2.1 mToggle rfl).1⟩

end Mlogin
